import Mathlib

/-!
Verification of the cursor-following pagination engine of
`data_scrapper_tpdb.py` (class `WebScraper`).

The Python code is shallowly embedded as follows.

* JSON values (what `response.json()` yields) are the inductive `JValue`;
  Python truthiness of such a value is `pyTruthy`.
* The accumulator `self.all_data` is an insertion-ordered association list
  `List (String × List JValue)`; `setdefault`/`extend` from line
  `self.all_data.setdefault(category, []).extend(target_data)` become
  `setdefault`, `mapAppend` and `mergePage`.
* `fetch_content` performs the single HTTP GET and returns `None` on any
  `requests.RequestException` (non-2xx, timeout, connection error,
  malformed JSON).  It is modelled by an oracle `fetch : String → Option
  JValue`: `none` is the caught-and-logged failure, `some body` a parsed
  body.
* `scrape_category`'s `while category_url:` loop becomes the fuel-indexed
  `scrapeLoop` over `scrapeStep`, which transcribes one loop body
  execution, including the places where the Python raises
  (`AttributeError` from `.get` on a non-dict, `IndexError` from
  `split('?', 1)[1]` on a link with no `'?'`, `TypeError` from
  `extend` of a non-iterable).  A raised exception is an `Outcome.exn`
  which aborts the whole run, exactly as an uncaught Python exception
  unwinds `run_scraper`.
* `run_scraper` and `save_data` are `run_scraper` and `save_data` below;
  the trace records the requested URLs (tagged with their category), the
  "JSON Data not found" warnings, and the accumulator.
-/

inductive JValue : Type where
  | null : JValue
  | bool : Bool → JValue
  | num : Int → JValue
  | str : String → JValue
  | arr : List JValue → JValue
  | obj : List (String × JValue) → JValue

/-- Python truthiness of a parsed JSON value (`if (json_data)`,
`if (target_data)`, `if next_page_url`). -/
def pyTruthy : JValue → Bool
  | JValue.null => false
  | JValue.bool b => b
  | JValue.num n => n != 0
  | JValue.str s => !s.data.isEmpty
  | JValue.arr xs => !xs.isEmpty
  | JValue.obj fs => !fs.isEmpty

/-- The exceptions the scraping loop can raise (uncaught in the source). -/
inductive PyErr : Type where
  | attributeError : PyErr
  | indexError : PyErr
  | typeError : PyErr
  deriving DecidableEq, Repr

/-- Association-list lookup modelling Python `dict` key lookup
(json-parsed dicts are modelled with their keys unique). -/
def lookupKey {β : Type} : List (String × β) → String → Option β
  | [], _ => none
  | (k, v) :: rest, key => if k = key then some v else lookupKey rest key

/-- `json_data.get('data')` on a dict body. -/
def getData (fs : List (String × JValue)) : JValue :=
  (lookupKey fs "data").getD JValue.null

/-- `json_data.get('links', {})` on a dict body. -/
def getLinks (fs : List (String × JValue)) : JValue :=
  (lookupKey fs "links").getD (JValue.obj [])

/-- `.get('next')` on a dict `links` value. -/
def getNext (lfs : List (String × JValue)) : JValue :=
  (lookupKey lfs "next").getD JValue.null

/-- The elements `list.extend(target_data)` appends: a list's elements, a
string's characters, a dict's keys; `TypeError` otherwise. -/
def extendElems : JValue → Except PyErr (List JValue)
  | JValue.arr xs => Except.ok xs
  | JValue.str s => Except.ok (s.data.map (fun ch => JValue.str (String.mk [ch])))
  | JValue.obj fs => Except.ok (fs.map (fun p => JValue.str p.1))
  | _ => Except.error PyErr.typeError

/-- `self.all_data.setdefault(category, [])`: keep the map if the key is
present, otherwise append an empty entry at the end (dict insertion
order). -/
def setdefault (m : List (String × List JValue)) (cat : String) :
    List (String × List JValue) :=
  if (lookupKey m cat).isSome then m else m ++ [(cat, [])]

/-- In-place `extend` of the list stored at `cat` (keeps entry order, as a
Python dict does; keys are unique, so at most one entry is affected). -/
def mapAppend : List (String × List JValue) → String → List JValue →
    List (String × List JValue)
  | [], _, _ => []
  | (k, v) :: rest, cat, xs =>
    if k = cat then (k, v ++ xs) :: mapAppend rest cat xs
    else (k, v) :: mapAppend rest cat xs

/-- `self.all_data.setdefault(category, []).extend(xs)` when `extend`
succeeds. -/
def mergePage (m : List (String × List JValue)) (cat : String)
    (xs : List JValue) : List (String × List JValue) :=
  mapAppend (setdefault m cat) cat xs

/-- Merging a whole sequence of pages, in order. -/
def mergeAll (cat : String) (m : List (String × List JValue))
    (ps : List (List JValue)) : List (String × List JValue) :=
  ps.foldl (fun acc d => mergePage acc cat d) m

/-- `next_page_url.split('?', 1)[1]` on the character list of the link:
everything strictly after the first `'?'`, and `none` (an `IndexError`
in the source) when the link has no `'?'` at all. -/
def splitQTail : List Char → Option (List Char)
  | [] => none
  | c :: cs => if c = '?' then some cs else splitQTail cs

/-- The yellow warning printed by `scrape_category`'s empty-data branch. -/
def warnMsg (cat : String) : String :=
  "JSON Data not found for category " ++ cat ++ "."

/-- Observable state of a run: every requested URL tagged with its
category, the empty-data warnings, and `self.all_data`. -/
structure Trace : Type where
  requests : List (String × String)
  warnings : List String
  all_data : List (String × List JValue)

/-- `f'{self.url_and_base}?letter={category}'`. -/
def initUrl (ub cat : String) : String :=
  ub ++ "?letter=" ++ cat

/-- `f"{self.url_and_base}?letter={category}&{string_split}"`. -/
def nextUrl (ub cat tail : String) : String :=
  ub ++ "?letter=" ++ cat ++ "&" ++ tail

/-- One execution of the body of `while category_url:` in
`scrape_category`, at url `u`.  Returns the updated trace, the next value
of `category_url` (`none` models Python `None`), and `some e` when the
body raises exception `e`. -/
def scrapeStep (fetch : String → Option JValue) (ub cat u : String)
    (t : Trace) : Trace × Option String × Option PyErr :=
  let t1 : Trace := { t with requests := t.requests ++ [(cat, u)] }
  match fetch u with
  | none => (t1, none, none)
  | some body =>
    if pyTruthy body then
      match body with
      | JValue.obj fs =>
        if pyTruthy (getData fs) then
          match extendElems (getData fs) with
          | Except.error e =>
            ({ t1 with all_data := setdefault t1.all_data cat }, none, some e)
          | Except.ok xs =>
            let t2 : Trace := { t1 with all_data := mergePage t1.all_data cat xs }
            match getLinks fs with
            | JValue.obj lfs =>
              if pyTruthy (getNext lfs) then
                match getNext lfs with
                | JValue.str s =>
                  match splitQTail s.data with
                  | some tail =>
                    (t2, some (nextUrl ub cat (String.mk tail)), none)
                  | none => (t2, none, some PyErr.indexError)
                | _ => (t2, none, some PyErr.attributeError)
              else (t2, none, none)
            | _ => (t2, none, some PyErr.attributeError)
        else
          ({ t1 with warnings := t1.warnings ++ [warnMsg cat] }, none, none)
      | _ => (t1, none, some PyErr.attributeError)
    else (t1, none, none)

/-- Terminal outcome of a (portion of a) run: normal completion, an
uncaught Python exception, or fuel exhaustion (the Python loop would
still be running). -/
inductive Outcome : Type where
  | ok : Outcome
  | exn : PyErr → Outcome
  | fuelOut : Outcome
  deriving DecidableEq, Repr

/-- The `while category_url:` loop of `scrape_category`, fuel-indexed for
totality.  `none` and the empty string are falsy, ending the loop. -/
def scrapeLoop (fetch : String → Option JValue) (ub cat : String) :
    Nat → Option String → Trace → Trace × Outcome
  | _, none, t => (t, Outcome.ok)
  | 0, some u, t => if u = "" then (t, Outcome.ok) else (t, Outcome.fuelOut)
  | fuel + 1, some u, t =>
    if u = "" then (t, Outcome.ok)
    else
      match scrapeStep fetch ub cat u t with
      | (t2, _, some e) => (t2, Outcome.exn e)
      | (t2, next, none) => scrapeLoop fetch ub cat fuel next t2

/-- `scrape_category`: run the loop from the initial category URL. -/
def scrape_category (fetch : String → Option JValue) (ub cat : String)
    (fuel : Nat) (t : Trace) : Trace × Outcome :=
  scrapeLoop fetch ub cat fuel (some (initUrl ub cat)) t

/-- The `for category in self.categories:` loop of `run_scraper`; an
exception in one category unwinds the whole loop. -/
def runLoop (fetch : String → Option JValue) (ub : String) (fuel : Nat) :
    List String → Trace → Trace × Outcome
  | [], t => (t, Outcome.ok)
  | c :: cs, t =>
    match scrape_category fetch ub c fuel t with
    | (t2, Outcome.ok) => runLoop fetch ub fuel cs t2
    | (t2, o) => (t2, o)

/-- Result of `save_data`: either the serialized mapping (the artifact's
content) or the "No data returned" skip. -/
inductive SaveOut : Type where
  | wrote : List (String × List JValue) → SaveOut
  | nothingToPersist : SaveOut

/-- `save_data`: write the whole accumulator iff it is non-empty
(`if self.all_data:`). -/
def save_data (m : List (String × List JValue)) : SaveOut :=
  if m.isEmpty then SaveOut.nothingToPersist else SaveOut.wrote m

/-- `run_scraper`: every category in order, then `save_data` — unless an
exception unwound the loop first, in which case `save_data` never runs. -/
def run_scraper (fetch : String → Option JValue) (ub : String) (fuel : Nat)
    (cats : List String) : Trace × Outcome × Option SaveOut :=
  match runLoop fetch ub fuel cats ⟨[], [], []⟩ with
  | (t, Outcome.ok) => (t, Outcome.ok, some (save_data t.all_data))
  | (t, o) => (t, o, none)

/-! ### Basic facts about the embedded primitives -/

theorem splitQTail_of_not_mem : ∀ (l : List Char), '?' ∉ l → splitQTail l = none := by
  intro l h
  induction l with
  | nil => rfl
  | cons c cs ih =>
    simp only [List.mem_cons, not_or] at h
    simp [splitQTail, Ne.symm h.1, ih h.2]

theorem splitQTail_append (pre tail : List Char) (h : '?' ∉ pre) :
    splitQTail (pre ++ '?' :: tail) = some tail := by
  induction pre with
  | nil => simp [splitQTail]
  | cons c cs ih =>
    simp only [List.mem_cons, not_or] at h
    simp [splitQTail, Ne.symm h.1, ih h.2]

theorem splitQTail_ne_nil {l : List Char} {tl : List Char}
    (h : splitQTail l = some tl) : l ≠ [] := by
  intro hl
  subst hl
  simp [splitQTail] at h

theorem string_mk_ne_empty {l : List Char} (h : l ≠ []) : String.mk l ≠ "" := by
  intro he
  exact h (congrArg String.data he)

theorem lookupKey_isSome_ne_nil {β : Type} {fs : List (String × β)} {k : String}
    {v : β} (h : lookupKey fs k = some v) : fs ≠ [] := by
  intro hfs
  subst hfs
  simp [lookupKey] at h

theorem lookupKey_append {β : Type} (a b : List (String × β)) (k : String) :
    lookupKey (a ++ b) k =
      match lookupKey a k with
      | some v => some v
      | none => lookupKey b k := by
  induction a with
  | nil => simp [lookupKey]
  | cons p rest ih =>
    by_cases hk : p.1 = k
    · simp [lookupKey, hk]
    · simp [lookupKey, hk, ih]

theorem lookupKey_mapAppend_self (m : List (String × List JValue)) (cat : String)
    (xs : List JValue) :
    lookupKey (mapAppend m cat xs) cat = (lookupKey m cat).map (fun v => v ++ xs) := by
  induction m with
  | nil => simp [mapAppend, lookupKey]
  | cons p rest ih =>
    obtain ⟨k, v⟩ := p
    by_cases hk : k = cat
    · subst hk
      simp [mapAppend, lookupKey]
    · simp [mapAppend, lookupKey, hk, ih]

theorem lookupKey_mapAppend_other (m : List (String × List JValue)) (cat : String)
    (xs : List JValue) (c : String) (h : c ≠ cat) :
    lookupKey (mapAppend m cat xs) c = lookupKey m c := by
  induction m with
  | nil => simp [mapAppend, lookupKey]
  | cons p rest ih =>
    obtain ⟨k, v⟩ := p
    by_cases hk : k = cat
    · subst hk
      simp [mapAppend, lookupKey, Ne.symm h, ih]
    · by_cases hc : k = c
      · subst hc
        simp [mapAppend, lookupKey, h, ih]
      · simp [mapAppend, lookupKey, hk, hc, ih]

theorem lookupKey_setdefault_self (m : List (String × List JValue)) (cat : String) :
    lookupKey (setdefault m cat) cat = some ((lookupKey m cat).getD []) := by
  simp only [setdefault]
  cases h : lookupKey m cat with
  | some v => simp [h]
  | none =>
    simp only [h, Option.isSome_none, Bool.false_eq_true, if_false]
    rw [lookupKey_append]
    simp [h, lookupKey]

theorem lookupKey_setdefault_other (m : List (String × List JValue)) (cat : String)
    (c : String) (h : c ≠ cat) :
    lookupKey (setdefault m cat) c = lookupKey m c := by
  simp only [setdefault]
  by_cases hs : (lookupKey m cat).isSome = true
  · simp [hs]
  · simp only [if_neg hs]
    rw [lookupKey_append]
    cases hc : lookupKey m c with
    | some v => simp
    | none => simp [lookupKey, Ne.symm h]

theorem lookupKey_mergePage_self (m : List (String × List JValue)) (cat : String)
    (xs : List JValue) :
    lookupKey (mergePage m cat xs) cat = some ((lookupKey m cat).getD [] ++ xs) := by
  unfold mergePage
  rw [lookupKey_mapAppend_self, lookupKey_setdefault_self]
  rfl

theorem lookupKey_mergePage_other (m : List (String × List JValue)) (cat : String)
    (xs : List JValue) (c : String) (h : c ≠ cat) :
    lookupKey (mergePage m cat xs) c = lookupKey m c := by
  unfold mergePage
  rw [lookupKey_mapAppend_other _ _ _ _ h, lookupKey_setdefault_other _ _ _ h]

theorem mergePage_entry (cat : String) (acc xs : List JValue) :
    mergePage [(cat, acc)] cat xs = [(cat, acc ++ xs)] := by
  simp [mergePage, setdefault, lookupKey, mapAppend]

theorem mergePage_nil (cat : String) (xs : List JValue) :
    mergePage [] cat xs = [(cat, xs)] := by
  simp [mergePage, setdefault, lookupKey, mapAppend]

theorem mergeAll_cons (cat : String) (m : List (String × List JValue))
    (d : List JValue) (ps : List (List JValue)) :
    mergeAll cat m (d :: ps) = mergeAll cat (mergePage m cat d) ps := by
  rfl

theorem mergeAll_entry (cat : String) (acc : List JValue) (ps : List (List JValue)) :
    mergeAll cat [(cat, acc)] ps = [(cat, acc ++ ps.flatten)] := by
  induction ps generalizing acc with
  | nil => simp [mergeAll]
  | cons d rest ih =>
    rw [mergeAll_cons, mergePage_entry, ih]
    simp

theorem mergeAll_nil_start (cat : String) (ps : List (List JValue)) :
    mergeAll cat [] ps =
      if ps.isEmpty then ([] : List (String × List JValue)) else [(cat, ps.flatten)] := by
  cases ps with
  | nil => rfl
  | cons d rest =>
    rw [mergeAll_cons, mergePage_nil, mergeAll_entry]
    simp

/-! ### Case analysis of one loop-body execution (`scrapeStep`) -/

theorem scrapeStep_fetch_none (fetch : String → Option JValue) (ub cat u : String)
    (t : Trace) (h : fetch u = none) :
    scrapeStep fetch ub cat u t =
      ({ t with requests := t.requests ++ [(cat, u)] }, none, none) := by
  simp [scrapeStep, h]

theorem scrapeStep_falsy (fetch : String → Option JValue) (ub cat u : String)
    (t : Trace) (body : JValue) (hf : fetch u = some body)
    (hb : pyTruthy body = false) :
    scrapeStep fetch ub cat u t =
      ({ t with requests := t.requests ++ [(cat, u)] }, none, none) := by
  simp [scrapeStep, hf, hb]

theorem scrapeStep_warn (fetch : String → Option JValue) (ub cat u : String)
    (t : Trace) (fs : List (String × JValue)) (hf : fetch u = some (JValue.obj fs))
    (hne : fs ≠ []) (hd : pyTruthy (getData fs) = false) :
    scrapeStep fetch ub cat u t =
      ({ t with requests := t.requests ++ [(cat, u)],
                warnings := t.warnings ++ [warnMsg cat] }, none, none) := by
  have hb : pyTruthy (JValue.obj fs) = true := by
    simp [pyTruthy, List.isEmpty_iff, hne]
  simp [scrapeStep, hf, hb, hd]

theorem scrapeStep_good_next (fetch : String → Option JValue) (ub cat u : String)
    (t : Trace) (fs : List (String × JValue)) (d : List JValue)
    (lfs : List (String × JValue)) (s : String) (tail : List Char)
    (hf : fetch u = some (JValue.obj fs))
    (hd : lookupKey fs "data" = some (JValue.arr d)) (hne : d ≠ [])
    (hl : getLinks fs = JValue.obj lfs)
    (hn : getNext lfs = JValue.str s)
    (hq : splitQTail s.data = some tail) :
    scrapeStep fetch ub cat u t =
      ({ t with requests := t.requests ++ [(cat, u)],
                all_data := mergePage t.all_data cat d },
       some (nextUrl ub cat (String.mk tail)), none) := by
  have hb : pyTruthy (JValue.obj fs) = true := by
    simp [pyTruthy, List.isEmpty_iff, lookupKey_isSome_ne_nil hd]
  have hgd : getData fs = JValue.arr d := by
    simp [getData, hd]
  have hadt : pyTruthy (JValue.arr d) = true := by
    simp [pyTruthy, List.isEmpty_iff, hne]
  have hst : pyTruthy (JValue.str s) = true := by
    simp [pyTruthy, List.isEmpty_iff, splitQTail_ne_nil hq]
  simp [scrapeStep, hf, hb, hgd, hadt, extendElems, hl, hn, hst, hq]

theorem scrapeStep_good_last (fetch : String → Option JValue) (ub cat u : String)
    (t : Trace) (fs : List (String × JValue)) (d : List JValue)
    (lfs : List (String × JValue))
    (hf : fetch u = some (JValue.obj fs))
    (hd : lookupKey fs "data" = some (JValue.arr d)) (hne : d ≠ [])
    (hl : getLinks fs = JValue.obj lfs)
    (hn : pyTruthy (getNext lfs) = false) :
    scrapeStep fetch ub cat u t =
      ({ t with requests := t.requests ++ [(cat, u)],
                all_data := mergePage t.all_data cat d }, none, none) := by
  have hb : pyTruthy (JValue.obj fs) = true := by
    simp [pyTruthy, List.isEmpty_iff, lookupKey_isSome_ne_nil hd]
  have hgd : getData fs = JValue.arr d := by
    simp [getData, hd]
  have hadt : pyTruthy (JValue.arr d) = true := by
    simp [pyTruthy, List.isEmpty_iff, hne]
  simp [scrapeStep, hf, hb, hgd, hadt, extendElems, hl, hn]

theorem scrapeStep_noq (fetch : String → Option JValue) (ub cat u : String)
    (t : Trace) (fs : List (String × JValue)) (d : List JValue)
    (lfs : List (String × JValue)) (s : String)
    (hf : fetch u = some (JValue.obj fs))
    (hd : lookupKey fs "data" = some (JValue.arr d)) (hne : d ≠ [])
    (hl : getLinks fs = JValue.obj lfs)
    (hn : getNext lfs = JValue.str s)
    (hs : s.data ≠ [])
    (hq : '?' ∉ s.data) :
    scrapeStep fetch ub cat u t =
      ({ t with requests := t.requests ++ [(cat, u)],
                all_data := mergePage t.all_data cat d },
       none, some PyErr.indexError) := by
  have hb : pyTruthy (JValue.obj fs) = true := by
    simp [pyTruthy, List.isEmpty_iff, lookupKey_isSome_ne_nil hd]
  have hgd : getData fs = JValue.arr d := by
    simp [getData, hd]
  have hadt : pyTruthy (JValue.arr d) = true := by
    simp [pyTruthy, List.isEmpty_iff, hne]
  have hst : pyTruthy (JValue.str s) = true := by
    simp [pyTruthy, List.isEmpty_iff, hs]
  have hsplit : splitQTail s.data = none := splitQTail_of_not_mem _ hq
  simp [scrapeStep, hf, hb, hgd, hadt, extendElems, hl, hn, hst, hsplit]

/-! ### Unfolding the `while category_url:` loop -/

theorem scrapeLoop_none (fetch : String → Option JValue) (ub cat : String)
    (fuel : Nat) (t : Trace) :
    scrapeLoop fetch ub cat fuel none t = (t, Outcome.ok) := by
  cases fuel <;> rfl

theorem scrapeLoop_succ (fetch : String → Option JValue) (ub cat : String)
    (fuel : Nat) (u : String) (t : Trace) (hu : u ≠ "") :
    scrapeLoop fetch ub cat (fuel + 1) (some u) t =
      match scrapeStep fetch ub cat u t with
      | (t2, _, some e) => (t2, Outcome.exn e)
      | (t2, next, none) => scrapeLoop fetch ub cat fuel next t2 := by
  simp [scrapeLoop, hu]

theorem scrapeLoop_of_step_stop (fetch : String → Option JValue) (ub cat u : String)
    (t t2 : Trace) (m : Nat) (hu : u ≠ "")
    (h : scrapeStep fetch ub cat u t = (t2, none, none)) :
    scrapeLoop fetch ub cat (m + 1) (some u) t = (t2, Outcome.ok) := by
  rw [scrapeLoop_succ _ _ _ _ _ _ hu, h]
  exact scrapeLoop_none _ _ _ _ _

theorem scrapeLoop_of_step_exn (fetch : String → Option JValue) (ub cat u : String)
    (t t2 : Trace) (m : Nat) (e : PyErr) (hu : u ≠ "")
    (h : scrapeStep fetch ub cat u t = (t2, none, some e)) :
    scrapeLoop fetch ub cat (m + 1) (some u) t = (t2, Outcome.exn e) := by
  rw [scrapeLoop_succ _ _ _ _ _ _ hu, h]

theorem string_data_append (a b : String) : (a ++ b).data = a.data ++ b.data := by
  cases a
  cases b
  rfl

theorem initUrl_ne_empty (ub cat : String) : initUrl ub cat ≠ "" := by
  intro h
  have hd : (ub ++ "?letter=" ++ cat).data = [] := congrArg String.data h
  rw [string_data_append, string_data_append] at hd
  rcases List.append_eq_nil.mp hd with ⟨h1, -⟩
  rcases List.append_eq_nil.mp h1 with ⟨-, h2⟩
  exact absurd h2 (by decide)

theorem nextUrl_ne_empty (ub cat tl : String) : nextUrl ub cat tl ≠ "" := by
  intro h
  have hd : (ub ++ "?letter=" ++ cat ++ "&" ++ tl).data = [] := congrArg String.data h
  rw [string_data_append, string_data_append, string_data_append,
      string_data_append] at hd
  rcases List.append_eq_nil.mp hd with ⟨h1, -⟩
  rcases List.append_eq_nil.mp h1 with ⟨-, h2⟩
  exact absurd h2 (by decide)

theorem scrapeLoop_of_step_next (fetch : String → Option JValue) (ub cat u u2 : String)
    (t t2 : Trace) (m : Nat) (hu : u ≠ "")
    (h : scrapeStep fetch ub cat u t = (t2, some u2, none)) :
    scrapeLoop fetch ub cat (m + 1) (some u) t = scrapeLoop fetch ub cat m (some u2) t2 := by
  rw [scrapeLoop_succ _ _ _ _ _ _ hu, h]

/-! ### Chains of successfully fetched pages

`PageChain fetch ub cat u ps us uLast` says: starting from url `u`, the
oracle serves a finite run of pages whose `data` arrays are `ps` (in
order) and whose request urls are `us`, each carrying a next-link with a
query tail, and the next url to request after the run is `uLast`. -/

inductive PageChain (fetch : String → Option JValue) (ub cat : String) :
    String → List (List JValue) → List String → String → Prop where
  | nil : ∀ u, PageChain fetch ub cat u [] [] u
  | cons : ∀ u fs d lfs pre tail ps us uLast,
      u ≠ "" →
      fetch u = some (JValue.obj fs) →
      lookupKey fs "data" = some (JValue.arr d) →
      d ≠ [] →
      getLinks fs = JValue.obj lfs →
      getNext lfs = JValue.str (String.mk (pre ++ '?' :: tail)) →
      '?' ∉ pre →
      PageChain fetch ub cat (nextUrl ub cat (String.mk tail)) ps us uLast →
      PageChain fetch ub cat u (d :: ps) (u :: us) uLast

theorem scrapeLoop_chain (fetch : String → Option JValue) (ub cat : String)
    {u : String} {ps : List (List JValue)} {us : List String} {uLast : String}
    (hc : PageChain fetch ub cat u ps us uLast) :
    ∀ (fuel : Nat) (t : Trace),
      scrapeLoop fetch ub cat (ps.length + fuel) (some u) t =
        scrapeLoop fetch ub cat fuel (some uLast)
          { t with requests := t.requests ++ us.map (fun x => (cat, x)),
                   all_data := mergeAll cat t.all_data ps } := by
  induction hc with
  | nil u =>
    intro fuel t
    simp [mergeAll]
  | cons u fs d lfs pre tail ps us uLast hu hf hd hne hl hn hpre hrest ih =>
    intro fuel t
    have hq : splitQTail (String.mk (pre ++ '?' :: tail)).data = some tail :=
      splitQTail_append pre tail hpre
    have hstep := scrapeStep_good_next fetch ub cat u t fs d lfs _ tail hf hd hne hl hn hq
    have hlen : (d :: ps).length + fuel = ps.length + fuel + 1 := by
      rw [List.length_cons]
      omega
    rw [hlen, scrapeLoop_of_step_next _ _ _ _ _ _ _ _ hu hstep, ih fuel _]
    congr 1
    simp [mergeAll_cons, List.append_assoc]

theorem scrapeStep_requests (fetch : String → Option JValue) (ub cat u : String)
    (t : Trace) :
    (scrapeStep fetch ub cat u t).1.requests = t.requests ++ [(cat, u)] := by
  unfold scrapeStep
  cases fetch u with
  | none => rfl
  | some body =>
    dsimp only
    repeat' split
    all_goals rfl

theorem scrapeStep_warnings (fetch : String → Option JValue) (ub cat u : String)
    (t : Trace) :
    (scrapeStep fetch ub cat u t).1.warnings = t.warnings ∨
      ((scrapeStep fetch ub cat u t).1.warnings = t.warnings ++ [warnMsg cat] ∧
        ∃ fs, fetch u = some (JValue.obj fs) ∧ pyTruthy (JValue.obj fs) = true ∧
          pyTruthy (getData fs) = false) := by
  unfold scrapeStep
  cases hfu : fetch u with
  | none => left; rfl
  | some body =>
    dsimp only
    split
    · case isTrue hb =>
      split
      · case h_1 fs =>
        by_cases hdt : pyTruthy (getData fs) = true
        · rw [if_pos hdt]
          repeat' split
          all_goals (left; rfl)
        · rw [if_neg hdt]
          right
          exact ⟨rfl, fs, rfl, hb, by simpa using hdt⟩
      · case h_2 => left; rfl
    · left; rfl

theorem scrapeLoop_empty_url (fetch : String → Option JValue) (ub cat : String)
    (fuel : Nat) (t : Trace) :
    scrapeLoop fetch ub cat fuel (some "") t = (t, Outcome.ok) := by
  cases fuel <;> simp [scrapeLoop]

theorem scrapeLoop_requests_mono (fetch : String → Option JValue) (ub cat : String) :
    ∀ (fuel : Nat) (url : Option String) (t : Trace),
      ∃ rest, (scrapeLoop fetch ub cat fuel url t).1.requests = t.requests ++ rest := by
  intro fuel
  induction fuel with
  | zero =>
    intro url t
    cases url with
    | none => exact ⟨[], by rw [scrapeLoop_none]; simp⟩
    | some u =>
      by_cases hu : u = ""
      · subst hu
        exact ⟨[], by rw [scrapeLoop_empty_url]; simp⟩
      · exact ⟨[], by simp [scrapeLoop, hu]⟩
  | succ n ih =>
    intro url t
    cases url with
    | none => exact ⟨[], by rw [scrapeLoop_none]; simp⟩
    | some u =>
      by_cases hu : u = ""
      · subst hu
        exact ⟨[], by rw [scrapeLoop_empty_url]; simp⟩
      · rw [scrapeLoop_succ _ _ _ _ _ _ hu]
        have hreq := scrapeStep_requests fetch ub cat u t
        rcases hstep : scrapeStep fetch ub cat u t with ⟨t2, nxt, err⟩
        rw [hstep] at hreq
        cases err with
        | some e =>
          exact ⟨[(cat, u)], hreq⟩
        | none =>
          rcases ih nxt t2 with ⟨r2, hr2⟩
          refine ⟨[(cat, u)] ++ r2, ?_⟩
          dsimp only
          rw [hr2, hreq, List.append_assoc]

theorem runLoop_nil (fetch : String → Option JValue) (ub : String) (fuel : Nat)
    (t : Trace) : runLoop fetch ub fuel [] t = (t, Outcome.ok) := rfl

theorem runLoop_cons (fetch : String → Option JValue) (ub : String) (fuel : Nat)
    (c : String) (cs : List String) (t : Trace) :
    runLoop fetch ub fuel (c :: cs) t =
      match scrape_category fetch ub c fuel t with
      | (t2, Outcome.ok) => runLoop fetch ub fuel cs t2
      | (t2, o) => (t2, o) := rfl

/-- The per-category outcome patterns "transport failure", "falsy body",
"missing/empty `data`", or "one good page with no further next-link":
every category is finished after its very first request, with no
exception raised. -/
def OnePageOutcome (fetch : String → Option JValue) : Prop :=
  ∀ u body, fetch u = some body →
    pyTruthy body = false ∨
      ∃ fs, body = JValue.obj fs ∧
        (pyTruthy (getData fs) = false ∨
          ∃ d, lookupKey fs "data" = some (JValue.arr d) ∧
            ∃ lfs, getLinks fs = JValue.obj lfs ∧ pyTruthy (getNext lfs) = false)

theorem scrape_category_one_page (fetch : String → Option JValue) (ub cat : String)
    (m : Nat) (t : Trace) (h : OnePageOutcome fetch) :
    ∃ w a, scrape_category fetch ub cat (m + 1) t =
      ({ t with requests := t.requests ++ [(cat, initUrl ub cat)],
                warnings := t.warnings ++ w,
                all_data := a }, Outcome.ok) := by
  have hu : initUrl ub cat ≠ "" := initUrl_ne_empty ub cat
  unfold scrape_category
  cases hf : fetch (initUrl ub cat) with
  | none =>
    refine ⟨[], t.all_data, ?_⟩
    rw [scrapeLoop_of_step_stop _ _ _ _ _ _ _ hu (scrapeStep_fetch_none _ _ _ _ _ hf)]
    simp
  | some body =>
    by_cases hb : pyTruthy body = true
    · rcases h _ _ hf with hfalsy | ⟨fs, hbody, hrest⟩
      · rw [hfalsy] at hb
        exact absurd hb (by simp)
      · subst hbody
        by_cases hdt : pyTruthy (getData fs) = true
        · rcases hrest with hfalsy | ⟨d, hd, lfs, hl, hn⟩
          · rw [hfalsy] at hdt
            exact absurd hdt (by simp)
          · have hne : d ≠ [] := by
              intro hnil
              subst hnil
              rw [getData, hd] at hdt
              simp [pyTruthy] at hdt
            refine ⟨[], mergePage t.all_data cat d, ?_⟩
            rw [scrapeLoop_of_step_stop _ _ _ _ _ _ _ hu
              (scrapeStep_good_last _ _ _ _ _ _ _ _ hf hd hne hl hn)]
            simp
        · have hfs : fs ≠ [] := by
            intro hnil
            subst hnil
            simp [pyTruthy] at hb
          refine ⟨[warnMsg cat], t.all_data, ?_⟩
          rw [scrapeLoop_of_step_stop _ _ _ _ _ _ _ hu
            (scrapeStep_warn _ _ _ _ _ _ hf hfs (by simpa using hdt))]
    · refine ⟨[], t.all_data, ?_⟩
      rw [scrapeLoop_of_step_stop _ _ _ _ _ _ _ hu
        (scrapeStep_falsy _ _ _ _ _ _ hf (by simpa using hb))]
      simp

theorem runLoop_one_page (fetch : String → Option JValue) (ub : String) (m : Nat)
    (h : OnePageOutcome fetch) :
    ∀ (cats : List String) (t : Trace),
      ∃ w a, runLoop fetch ub (m + 1) cats t =
        ({ t with requests := t.requests ++ cats.map (fun c => (c, initUrl ub c)),
                  warnings := t.warnings ++ w,
                  all_data := a }, Outcome.ok) := by
  intro cats
  induction cats with
  | nil =>
    intro t
    exact ⟨[], t.all_data, by simp [runLoop_nil]⟩
  | cons c cs ih =>
    intro t
    rcases scrape_category_one_page fetch ub c m t h with ⟨w1, a1, h1⟩
    rcases ih ({ t with requests := t.requests ++ [(c, initUrl ub c)],
                        warnings := t.warnings ++ w1,
                        all_data := a1 }) with ⟨w2, a2, h2⟩
    refine ⟨w1 ++ w2, a2, ?_⟩
    rw [runLoop_cons, h1]
    dsimp only
    rw [h2]
    simp [List.append_assoc]

theorem scrape_category_chain (fetch : String → Option JValue) (ub cat : String)
    {ps : List (List JValue)} {us : List String} {uLast : String} (fuel : Nat)
    (hchain : PageChain fetch ub cat (initUrl ub cat) ps us uLast) :
    scrape_category fetch ub cat (ps.length + fuel) ⟨[], [], []⟩ =
      scrapeLoop fetch ub cat fuel (some uLast)
        ⟨us.map (fun x => (cat, x)), [], mergeAll cat [] ps⟩ := by
  unfold scrape_category
  rw [scrapeLoop_chain fetch ub cat hchain fuel ⟨[], [], []⟩]
  rfl

theorem mergeAll_push (cat : String) (ps : List (List JValue)) (d : List JValue) :
    mergePage (mergeAll cat [] ps) cat d = [(cat, ps.flatten ++ d)] := by
  have h : mergePage (mergeAll cat [] ps) cat d = mergeAll cat [] (ps ++ [d]) := by
    simp [mergeAll, List.foldl_append]
  rw [h, mergeAll_nil_start]
  simp

theorem pageChain_mem_fetched {fetch : String → Option JValue} {ub cat : String}
    {u : String} {ps : List (List JValue)} {us : List String} {uLast : String}
    (hc : PageChain fetch ub cat u ps us uLast) :
    ∀ x ∈ us, ∃ body, fetch x = some body := by
  induction hc with
  | nil u => simp
  | cons u fs d lfs pre tail ps us uLast hu hf hd hne hl hn hpre hrest ih =>
    intro x hx
    rcases List.mem_cons.mp hx with hx | hx
    · subst hx
      exact ⟨_, hf⟩
    · exact ih x hx

/-- C5: for every category whose page chain is finite and terminates with
"no next link", draining the category yields exactly the concatenation of
each page's record array in page-visit order (the pages are
`ps ++ [d]`): no record is dropped, duplicated or re-sorted. -/
theorem c5_theorem (fetch : String → Option JValue) (ub cat : String)
    {ps : List (List JValue)} {us : List String} {uLast : String}
    (fs : List (String × JValue)) (d : List JValue)
    (lfs : List (String × JValue)) (m : Nat)
    (hchain : PageChain fetch ub cat (initUrl ub cat) ps us uLast)
    (hu : uLast ≠ "")
    (hf : fetch uLast = some (JValue.obj fs))
    (hd : lookupKey fs "data" = some (JValue.arr d))
    (hne : d ≠ [])
    (hl : getLinks fs = JValue.obj lfs)
    (hn : pyTruthy (getNext lfs) = false) :
    scrape_category fetch ub cat (ps.length + (m + 1)) ⟨[], [], []⟩ =
      (⟨us.map (fun x => (cat, x)) ++ [(cat, uLast)], [],
        [(cat, (ps ++ [d]).flatten)]⟩, Outcome.ok) := by
  rw [scrape_category_chain fetch ub cat (m + 1) hchain,
      scrapeLoop_of_step_stop _ _ _ _ _ _ _ hu
        (scrapeStep_good_last _ _ _ _ _ _ _ _ hf hd hne hl hn)]
  simp [mergeAll_push]

/-- C6: a fetch error (modelled by the oracle returning `none`) at any
page position stops the category's pagination immediately and normally:
the failed URL is requested exactly once (no retry) and every record
already merged from earlier pages is kept unchanged. -/
theorem c6_theorem (fetch : String → Option JValue) (ub cat : String)
    {ps : List (List JValue)} {us : List String} {uLast : String} (m : Nat)
    (hchain : PageChain fetch ub cat (initUrl ub cat) ps us uLast)
    (hu : uLast ≠ "")
    (hfail : fetch uLast = none) :
    scrape_category fetch ub cat (ps.length + (m + 1)) ⟨[], [], []⟩ =
      (⟨us.map (fun x => (cat, x)) ++ [(cat, uLast)], [],
        if ps.isEmpty then [] else [(cat, ps.flatten)]⟩, Outcome.ok) ∧
    (us.map (fun x => (cat, x)) ++ [(cat, uLast)]).count (cat, uLast) = 1 := by
  constructor
  · rw [scrape_category_chain fetch ub cat (m + 1) hchain,
        scrapeLoop_of_step_stop _ _ _ _ _ _ _ hu
          (scrapeStep_fetch_none _ _ _ _ _ hfail)]
    rw [mergeAll_nil_start]
  · have hnotin : (cat, uLast) ∉ us.map (fun x => (cat, x)) := by
      intro hmem
      rcases List.mem_map.mp hmem with ⟨x, hx, hpair⟩
      have hxu : x = uLast := congrArg Prod.snd hpair
      subst hxu
      rcases pageChain_mem_fetched hchain x hx with ⟨body, hbody⟩
      rw [hbody] at hfail
      exact Option.noConfusion hfail
    rw [List.count_append, List.count_eq_zero.mpr hnotin]
    simp

/-- C7 (amended): for every truthy (non-empty JSON object) response whose
`data` field is missing or an empty array, draining stops for the
category: everything accumulated before that page is kept, no further
request is made for the category, and the "JSON Data not found"
warning-class signal is emitted. -/
theorem c7_theorem (fetch : String → Option JValue) (ub cat : String)
    {ps : List (List JValue)} {us : List String} {uLast : String}
    (fs : List (String × JValue)) (m : Nat)
    (hchain : PageChain fetch ub cat (initUrl ub cat) ps us uLast)
    (hu : uLast ≠ "")
    (hf : fetch uLast = some (JValue.obj fs))
    (hfs : fs ≠ [])
    (hdata : lookupKey fs "data" = none ∨ lookupKey fs "data" = some (JValue.arr [])) :
    scrape_category fetch ub cat (ps.length + (m + 1)) ⟨[], [], []⟩ =
      (⟨us.map (fun x => (cat, x)) ++ [(cat, uLast)], [warnMsg cat],
        if ps.isEmpty then [] else [(cat, ps.flatten)]⟩, Outcome.ok) := by
  have hdt : pyTruthy (getData fs) = false := by
    rcases hdata with h | h <;> simp [getData, h, pyTruthy]
  rw [scrape_category_chain fetch ub cat (m + 1) hchain,
      scrapeLoop_of_step_stop _ _ _ _ _ _ _ hu
        (scrapeStep_warn _ _ _ _ _ _ hf hfs hdt)]
  rw [mergeAll_nil_start]
  rfl

/-- C3 (amended): for every successful page carrying a non-empty record
array, if `links.next` is absent or a falsy value — with `links` itself
absent or a JSON object — pagination ends normally: this page's records
are merged and no further request is made for the category.  (When
`links` is null or any non-dict, the code instead raises
`AttributeError`, see the counterexample.) -/
theorem c3_theorem (fetch : String → Option JValue) (ub cat : String)
    {ps : List (List JValue)} {us : List String} {uLast : String}
    (fs : List (String × JValue)) (d : List JValue) (m : Nat)
    (hchain : PageChain fetch ub cat (initUrl ub cat) ps us uLast)
    (hu : uLast ≠ "")
    (hf : fetch uLast = some (JValue.obj fs))
    (hd : lookupKey fs "data" = some (JValue.arr d))
    (hne : d ≠ [])
    (hlinks : lookupKey fs "links" = none ∨
      ∃ lfs, lookupKey fs "links" = some (JValue.obj lfs) ∧
        (lookupKey lfs "next" = none ∨
          ∃ v, lookupKey lfs "next" = some v ∧ pyTruthy v = false)) :
    scrape_category fetch ub cat (ps.length + (m + 1)) ⟨[], [], []⟩ =
      (⟨us.map (fun x => (cat, x)) ++ [(cat, uLast)], [],
        [(cat, ps.flatten ++ d)]⟩, Outcome.ok) := by
  have hres : ∃ lfs, getLinks fs = JValue.obj lfs ∧ pyTruthy (getNext lfs) = false := by
    rcases hlinks with h | ⟨lfs, hl, hnext⟩
    · refine ⟨[], by simp [getLinks, h], ?_⟩
      simp [getNext, lookupKey, pyTruthy]
    · refine ⟨lfs, by simp [getLinks, hl], ?_⟩
      rcases hnext with h | ⟨v, hv, hfalsy⟩
      · simp [getNext, h, pyTruthy]
      · simp [getNext, hv, hfalsy]
  rcases hres with ⟨lfs, hl, hn⟩
  rw [scrape_category_chain fetch ub cat (m + 1) hchain,
      scrapeLoop_of_step_stop _ _ _ _ _ _ _ hu
        (scrapeStep_good_last _ _ _ _ _ _ _ _ hf hd hne hl hn)]
  simp [mergeAll_push]

/-- C1 (amended): a next-link that is present (a truthy string) but
contains no `'?'` character is NOT treated as "no further page": the code
raises an uncaught `IndexError` (from `split('?', 1)[1]`).  Pagination
stops at the current page with no further request, the already-merged
records — including the current page's — stay in the accumulator, but the
exception aborts the run. -/
theorem c1_theorem (fetch : String → Option JValue) (ub cat : String)
    {ps : List (List JValue)} {us : List String} {uLast : String}
    (fs : List (String × JValue)) (d : List JValue)
    (lfs : List (String × JValue)) (s : String) (m : Nat)
    (hchain : PageChain fetch ub cat (initUrl ub cat) ps us uLast)
    (hu : uLast ≠ "")
    (hf : fetch uLast = some (JValue.obj fs))
    (hd : lookupKey fs "data" = some (JValue.arr d))
    (hne : d ≠ [])
    (hl : getLinks fs = JValue.obj lfs)
    (hn : getNext lfs = JValue.str s)
    (hs : s.data ≠ [])
    (hq : '?' ∉ s.data) :
    scrape_category fetch ub cat (ps.length + (m + 1)) ⟨[], [], []⟩ =
      (⟨us.map (fun x => (cat, x)) ++ [(cat, uLast)], [],
        [(cat, ps.flatten ++ d)]⟩, Outcome.exn PyErr.indexError) := by
  rw [scrape_category_chain fetch ub cat (m + 1) hchain,
      scrapeLoop_of_step_exn _ _ _ _ _ _ _ _ hu
        (scrapeStep_noq _ _ _ _ _ _ _ _ _ hf hd hne hl hn hs hq)]
  simp [mergeAll_push]

/-! ### The accumulator-entry invariant (claim C4) -/

/-- The page at `u` (as served by the oracle) carries at least one record
in a `data` array. -/
def HasRecords (fetch : String → Option JValue) (u : String) : Prop :=
  ∃ fs d, fetch u = some (JValue.obj fs) ∧
    lookupKey fs "data" = some (JValue.arr d) ∧ d ≠ []

/-- The accumulator has an entry for a category iff some already-requested
page of that category carried at least one record. -/
def EntriesMatch (fetch : String → Option JValue) (t : Trace) : Prop :=
  ∀ c, (lookupKey t.all_data c).isSome = true ↔
    ∃ u, (c, u) ∈ t.requests ∧ HasRecords fetch u

/-- Every truthy `data` value the oracle ever serves is a JSON array
(rules out the `TypeError` path of `extend`). -/
def ArrDataOnly (fetch : String → Option JValue) : Prop :=
  ∀ u fs v, fetch u = some (JValue.obj fs) → lookupKey fs "data" = some v →
    pyTruthy v = true → ∃ d, v = JValue.arr d

theorem scrapeStep_nonobj (fetch : String → Option JValue) (ub cat u : String)
    (t : Trace) (body : JValue) (hf : fetch u = some body)
    (hb : pyTruthy body = true) (hshape : ∀ fs, body ≠ JValue.obj fs) :
    scrapeStep fetch ub cat u t =
      ({ t with requests := t.requests ++ [(cat, u)] },
       none, some PyErr.attributeError) := by
  unfold scrapeStep
  rw [hf]
  dsimp only
  rw [if_pos hb]
  cases body with
  | obj fs => exact absurd rfl (hshape fs)
  | null => rfl
  | bool b => rfl
  | num n => rfl
  | str s => rfl
  | arr xs => rfl

theorem scrapeStep_good_shape (fetch : String → Option JValue) (ub cat u : String)
    (t : Trace) (fs : List (String × JValue)) (d : List JValue)
    (hf : fetch u = some (JValue.obj fs))
    (hd : lookupKey fs "data" = some (JValue.arr d)) (hne : d ≠ []) :
    ∃ nxt err, scrapeStep fetch ub cat u t =
      ({ t with requests := t.requests ++ [(cat, u)],
                all_data := mergePage t.all_data cat d }, nxt, err) := by
  have hb : pyTruthy (JValue.obj fs) = true := by
    simp [pyTruthy, List.isEmpty_iff, lookupKey_isSome_ne_nil hd]
  have hgd : getData fs = JValue.arr d := by
    simp [getData, hd]
  have hadt : pyTruthy (JValue.arr d) = true := by
    simp [pyTruthy, List.isEmpty_iff, hne]
  simp only [scrapeStep, hf, hb, if_pos, hgd, hadt, extendElems, if_true]
  repeat' split
  all_goals exact ⟨_, _, rfl⟩

theorem scrapeStep_all_data_char (fetch : String → Option JValue) (ub cat u : String)
    (t : Trace) (hArr : ArrDataOnly fetch) :
    ((scrapeStep fetch ub cat u t).1.all_data = t.all_data ∧ ¬HasRecords fetch u) ∨
      (∃ d, (scrapeStep fetch ub cat u t).1.all_data = mergePage t.all_data cat d ∧
        HasRecords fetch u) := by
  cases hfu : fetch u with
  | none =>
    left
    rw [scrapeStep_fetch_none _ _ _ _ _ hfu]
    refine ⟨rfl, ?_⟩
    rintro ⟨fs, d, hsome, -, -⟩
    rw [hfu] at hsome
    exact Option.noConfusion hsome
  | some body =>
    by_cases hb : pyTruthy body = true
    · cases body with
      | obj fs =>
        by_cases hdt : pyTruthy (getData fs) = true
        · have hdl : ∃ v, lookupKey fs "data" = some v ∧ pyTruthy v = true := by
            cases hv : lookupKey fs "data" with
            | none =>
              rw [getData, hv] at hdt
              simp [pyTruthy] at hdt
            | some v =>
              refine ⟨v, rfl, ?_⟩
              rw [getData, hv] at hdt
              exact hdt
          rcases hdl with ⟨v, hv, hvt⟩
          rcases hArr u fs v hfu hv hvt with ⟨d, hvd⟩
          subst hvd
          have hne : d ≠ [] := by
            intro hnil
            subst hnil
            simp [pyTruthy] at hvt
          have hr : HasRecords fetch u := ⟨fs, d, hfu, hv, hne⟩
          rcases scrapeStep_good_shape fetch ub cat u t fs d hfu hv hne with ⟨nxt, err, heq⟩
          right
          exact ⟨d, by rw [heq], hr⟩
        · left
          have hfs : fs ≠ [] := by
            intro hnil
            subst hnil
            simp [pyTruthy] at hb
          rw [scrapeStep_warn _ _ _ _ _ _ hfu hfs (by simpa using hdt)]
          refine ⟨rfl, ?_⟩
          rintro ⟨fs2, d, hsome, hd2, hne2⟩
          rw [hfu] at hsome
          have hfs2 : fs2 = fs := by
            cases hsome
            rfl
          subst hfs2
          rw [getData, hd2] at hdt
          simp [pyTruthy, List.isEmpty_iff, hne2] at hdt
      | null =>
        exact absurd hb (by simp [pyTruthy])
      | bool b =>
        left
        rw [scrapeStep_nonobj _ _ _ _ _ _ hfu hb (by intro fs h; cases h)]
        refine ⟨rfl, ?_⟩
        rintro ⟨fs, d, hsome, -, -⟩
        rw [hfu] at hsome
        cases hsome
      | num n =>
        left
        rw [scrapeStep_nonobj _ _ _ _ _ _ hfu hb (by intro fs h; cases h)]
        refine ⟨rfl, ?_⟩
        rintro ⟨fs, d, hsome, -, -⟩
        rw [hfu] at hsome
        cases hsome
      | str s =>
        left
        rw [scrapeStep_nonobj _ _ _ _ _ _ hfu hb (by intro fs h; cases h)]
        refine ⟨rfl, ?_⟩
        rintro ⟨fs, d, hsome, -, -⟩
        rw [hfu] at hsome
        cases hsome
      | arr xs =>
        left
        rw [scrapeStep_nonobj _ _ _ _ _ _ hfu hb (by intro fs h; cases h)]
        refine ⟨rfl, ?_⟩
        rintro ⟨fs, d, hsome, -, -⟩
        rw [hfu] at hsome
        cases hsome
    · left
      rw [scrapeStep_falsy _ _ _ _ _ _ hfu (by simpa using hb)]
      refine ⟨rfl, ?_⟩
      rintro ⟨fs, d, hsome, hd2, -⟩
      rw [hfu] at hsome
      have : body = JValue.obj fs := by
        cases hsome
        rfl
      subst this
      exact hb (by simp [pyTruthy, List.isEmpty_iff, lookupKey_isSome_ne_nil hd2])

theorem entriesMatch_of_fields (fetch : String → Option JValue) (cat u : String)
    (t t2 : Trace) (hinv : EntriesMatch fetch t)
    (hreq : t2.requests = t.requests ++ [(cat, u)])
    (hdata : (t2.all_data = t.all_data ∧ ¬HasRecords fetch u) ∨
      (∃ d, t2.all_data = mergePage t.all_data cat d ∧ HasRecords fetch u)) :
    EntriesMatch fetch t2 := by
  intro c
  rw [hreq]
  rcases hdata with ⟨hsame, hnr⟩ | ⟨d, hmerge, hr⟩
  · rw [hsame, hinv c]
    constructor
    · rintro ⟨v, hv, hrec⟩
      exact ⟨v, List.mem_append_left _ hv, hrec⟩
    · rintro ⟨v, hv, hrec⟩
      rcases List.mem_append.mp hv with hv | hv
      · exact ⟨v, hv, hrec⟩
      · rcases List.mem_singleton.mp hv with hpair
        have hvu : v = u := congrArg Prod.snd hpair
        subst hvu
        exact absurd hrec hnr
  · rw [hmerge]
    by_cases hc : c = cat
    · subst hc
      rw [lookupKey_mergePage_self]
      simp only [Option.isSome_some, true_iff]
      exact ⟨u, List.mem_append_right _ (List.mem_singleton.mpr rfl), hr⟩
    · rw [lookupKey_mergePage_other _ _ _ _ hc, hinv c]
      constructor
      · rintro ⟨v, hv, hrec⟩
        exact ⟨v, List.mem_append_left _ hv, hrec⟩
      · rintro ⟨v, hv, hrec⟩
        rcases List.mem_append.mp hv with hv | hv
        · exact ⟨v, hv, hrec⟩
        · rcases List.mem_singleton.mp hv with hpair
          exact absurd (congrArg Prod.fst hpair) hc

theorem entriesMatch_step (fetch : String → Option JValue) (ub cat u : String)
    (t : Trace) (hArr : ArrDataOnly fetch) (hinv : EntriesMatch fetch t) :
    EntriesMatch fetch (scrapeStep fetch ub cat u t).1 :=
  entriesMatch_of_fields fetch cat u t _ hinv (scrapeStep_requests fetch ub cat u t)
    (scrapeStep_all_data_char fetch ub cat u t hArr)

theorem entriesMatch_scrapeLoop (fetch : String → Option JValue) (ub cat : String)
    (hArr : ArrDataOnly fetch) :
    ∀ (fuel : Nat) (url : Option String) (t : Trace), EntriesMatch fetch t →
      EntriesMatch fetch (scrapeLoop fetch ub cat fuel url t).1 := by
  intro fuel
  induction fuel with
  | zero =>
    intro url t h
    cases url with
    | none =>
      rw [scrapeLoop_none]
      exact h
    | some u =>
      by_cases hu : u = ""
      · subst hu
        rw [scrapeLoop_empty_url]
        exact h
      · simp only [scrapeLoop, if_neg hu]
        exact h
  | succ n ih =>
    intro url t h
    cases url with
    | none =>
      rw [scrapeLoop_none]
      exact h
    | some u =>
      by_cases hu : u = ""
      · subst hu
        rw [scrapeLoop_empty_url]
        exact h
      · rw [scrapeLoop_succ _ _ _ _ _ _ hu]
        have h2 := entriesMatch_step fetch ub cat u t hArr h
        rcases hstep : scrapeStep fetch ub cat u t with ⟨t2, nxt, err⟩
        rw [hstep] at h2
        cases err with
        | some e => exact h2
        | none => exact ih nxt t2 h2

theorem entriesMatch_runLoop (fetch : String → Option JValue) (ub : String)
    (hArr : ArrDataOnly fetch) :
    ∀ (cats : List String) (fuel : Nat) (t : Trace), EntriesMatch fetch t →
      EntriesMatch fetch (runLoop fetch ub fuel cats t).1 := by
  intro cats
  induction cats with
  | nil =>
    intro fuel t h
    rw [runLoop_nil]
    exact h
  | cons c cs ih =>
    intro fuel t h
    rw [runLoop_cons]
    have h2 := entriesMatch_scrapeLoop fetch ub c hArr fuel (some (initUrl ub c)) t h
    rcases hsc : scrape_category fetch ub c fuel t with ⟨t2, o⟩
    rw [scrape_category] at hsc
    rw [hsc] at h2
    cases o with
    | ok => exact ih fuel t2 h2
    | exn e => exact h2
    | fuelOut => exact h2

/-- C2 (amended): for every configured category list and every pattern of
per-category outcomes drawn from transport failures, empty results (falsy
bodies or missing/empty `data`) and single-page successes — i.e. no
malformed cursor, which instead raises `IndexError` and aborts the run
(see the counterexample) — the run requests every configured category
exactly once, in the caller-supplied order, no category's failure aborts
a later category, and the run attempts to persist whatever was
collected. -/
theorem c2_theorem (fetch : String → Option JValue) (ub : String)
    (cats : List String) (m : Nat) (h : OnePageOutcome fetch) :
    (run_scraper fetch ub (m + 1) cats).1.requests =
        cats.map (fun c => (c, initUrl ub c)) ∧
      (run_scraper fetch ub (m + 1) cats).2.1 = Outcome.ok ∧
      (run_scraper fetch ub (m + 1) cats).2.2 =
        some (save_data (run_scraper fetch ub (m + 1) cats).1.all_data) := by
  rcases runLoop_one_page fetch ub m h cats ⟨[], [], []⟩ with ⟨w, a, hrun⟩
  unfold run_scraper
  rw [hrun]
  dsimp only
  refine ⟨by simp, rfl, rfl⟩

/-- C4 (amended): provided every truthy `data` value the server serves is
an array (otherwise `setdefault` runs but `extend` raises `TypeError`,
leaving an empty entry — see the counterexample), the invariant holds at
every point: a step preserves it, and after any run prefix the
accumulator has an entry for a category iff one of that category's
requested pages carried at least one record. -/
theorem c4_theorem (fetch : String → Option JValue) (ub : String)
    (hArr : ArrDataOnly fetch) :
    (∀ (cat u : String) (t : Trace), EntriesMatch fetch t →
        EntriesMatch fetch (scrapeStep fetch ub cat u t).1) ∧
      (∀ (fuel : Nat) (cats : List String),
        EntriesMatch fetch (runLoop fetch ub fuel cats ⟨[], [], []⟩).1) := by
  constructor
  · intro cat u t hinv
    exact entriesMatch_step fetch ub cat u t hArr hinv
  · intro fuel cats
    have h0 : EntriesMatch fetch ⟨[], [], []⟩ := by
      intro c
      simp [lookupKey]
    exact entriesMatch_runLoop fetch ub hArr cats fuel _ h0

theorem scrapeLoop_two_requests (fetch : String → Option JValue) (ub cat : String)
    (u u2 : String) (t t2 : Trace) (m : Nat) (hu : u ≠ "") (hu2 : u2 ≠ "")
    (hstep : scrapeStep fetch ub cat u t = (t2, some u2, none)) :
    ∃ rest, (scrapeLoop fetch ub cat (m + 2) (some u) t).1.requests =
      t.requests ++ [(cat, u), (cat, u2)] ++ rest := by
  have hr1 : t2.requests = t.requests ++ [(cat, u)] := by
    have := scrapeStep_requests fetch ub cat u t
    rw [hstep] at this
    exact this
  rw [scrapeLoop_of_step_next _ _ _ _ _ _ _ _ hu hstep,
      scrapeLoop_succ _ _ _ _ _ _ hu2]
  have hr2 := scrapeStep_requests fetch ub cat u2 t2
  rcases hstep2 : scrapeStep fetch ub cat u2 t2 with ⟨t3, nxt2, err2⟩
  rw [hstep2] at hr2
  cases err2 with
  | some e =>
    refine ⟨[], ?_⟩
    dsimp only
    rw [hr2, hr1]
    simp
  | none =>
    rcases scrapeLoop_requests_mono fetch ub cat m nxt2 t3 with ⟨r, hr⟩
    refine ⟨r, ?_⟩
    dsimp only
    rw [hr, hr2, hr1]
    simp

/-- C8: URL construction is exact string recombination: the first request
for category `cat` is `ub ++ "?letter=" ++ cat`, and when the served
next-link contains a `'?'` — its characters decompose as
`pre ++ '?' :: tailChars` with no `'?'` in `pre`, so `tailChars` is
everything strictly after the first `'?'` — the second request is
`ub ++ "?letter=" ++ cat ++ "&" ++ tail`. -/
theorem c8_theorem (fetch : String → Option JValue) (ub cat : String)
    (fs : List (String × JValue)) (d : List JValue)
    (lfs : List (String × JValue)) (pre tailChars : List Char) (m : Nat)
    (hf : fetch (ub ++ "?letter=" ++ cat) = some (JValue.obj fs))
    (hd : lookupKey fs "data" = some (JValue.arr d))
    (hne : d ≠ [])
    (hl : getLinks fs = JValue.obj lfs)
    (hn : getNext lfs = JValue.str (String.mk (pre ++ '?' :: tailChars)))
    (hpre : '?' ∉ pre) :
    ∃ rest, (scrape_category fetch ub cat (m + 2) ⟨[], [], []⟩).1.requests =
      [(cat, ub ++ "?letter=" ++ cat),
       (cat, ub ++ "?letter=" ++ cat ++ "&" ++ String.mk tailChars)] ++ rest := by
  have hq : splitQTail (String.mk (pre ++ '?' :: tailChars)).data = some tailChars :=
    splitQTail_append pre tailChars hpre
  have hstep := scrapeStep_good_next fetch ub cat (initUrl ub cat) ⟨[], [], []⟩
    fs d lfs _ tailChars hf hd hne hl hn hq
  rcases scrapeLoop_two_requests fetch ub cat (initUrl ub cat)
      (nextUrl ub cat (String.mk tailChars)) ⟨[], [], []⟩ _ m
      (initUrl_ne_empty ub cat) (nextUrl_ne_empty ub cat (String.mk tailChars))
      hstep with ⟨rest, hr⟩
  refine ⟨rest, ?_⟩
  rw [scrape_category, hr]
  rfl

/-- C9: the Snapshot Writer decision: whenever the category loop finishes
without an uncaught exception, `save_data` is attempted on the final
accumulator; it skips with "nothing to persist" iff the accumulator is
empty, and otherwise writes the full category-to-records mapping. -/
theorem c9_theorem (fetch : String → Option JValue) (ub : String) (fuel : Nat)
    (cats : List String) (t : Trace)
    (hrun : runLoop fetch ub fuel cats ⟨[], [], []⟩ = (t, Outcome.ok)) :
    (run_scraper fetch ub fuel cats).2.2 = some (save_data t.all_data) ∧
      (t.all_data = [] → save_data t.all_data = SaveOut.nothingToPersist) ∧
      (t.all_data ≠ [] → save_data t.all_data = SaveOut.wrote t.all_data) := by
  refine ⟨?_, ?_, ?_⟩
  · unfold run_scraper
    rw [hrun]
  · intro h
    simp [save_data, h]
  · intro h
    simp [save_data, List.isEmpty_iff, h]

/-- C10: a successful fetch whose parsed body is falsy as a Python value
(`{}`, `[]`, `null`, `0`, `false`, `""`) is handled by the same silent
branch as a transport failure: the category stops normally after that one
request, with no "JSON Data not found" warning; and a step emits that
warning only when the body is a truthy object whose `data` field is
falsy. -/
theorem c10_theorem (fetch fetch2 : String → Option JValue) (ub cat u : String)
    (t : Trace) (body : JValue) (m : Nat)
    (hu : u ≠ "") (hf : fetch u = some body) (hfalsy : pyTruthy body = false)
    (hf2 : fetch2 u = none) :
    scrapeLoop fetch ub cat (m + 1) (some u) t =
        ({ t with requests := t.requests ++ [(cat, u)] }, Outcome.ok) ∧
      scrapeLoop fetch ub cat (m + 1) (some u) t =
        scrapeLoop fetch2 ub cat (m + 1) (some u) t ∧
      (∀ (u2 : String) (t2 : Trace),
        (scrapeStep fetch ub cat u2 t2).1.warnings ≠ t2.warnings →
          ∃ fs, fetch u2 = some (JValue.obj fs) ∧ pyTruthy (JValue.obj fs) = true ∧
            pyTruthy (getData fs) = false) := by
  have h1 : scrapeLoop fetch ub cat (m + 1) (some u) t =
      ({ t with requests := t.requests ++ [(cat, u)] }, Outcome.ok) :=
    scrapeLoop_of_step_stop _ _ _ _ _ _ _ hu (scrapeStep_falsy _ _ _ _ _ _ hf hfalsy)
  have h2 : scrapeLoop fetch2 ub cat (m + 1) (some u) t =
      ({ t with requests := t.requests ++ [(cat, u)] }, Outcome.ok) :=
    scrapeLoop_of_step_stop _ _ _ _ _ _ _ hu (scrapeStep_fetch_none _ _ _ _ _ hf2)
  refine ⟨h1, h1.trans h2.symm, ?_⟩
  intro u2 t2 hw
  rcases scrapeStep_warnings fetch ub cat u2 t2 with h | ⟨-, fs, hfs⟩
  · exact absurd h hw
  · exact ⟨fs, hfs⟩

/-! ### Concrete oracles for counterexamples and witnesses -/

/-- One page whose next-link `"page2"` has no query string (no `'?'`). -/
def fetchNoQ : String → Option JValue := fun u =>
  if u = "b?letter=A" then
    some (JValue.obj [("data", JValue.arr [JValue.num 1]),
                      ("links", JValue.obj [("next", JValue.str "page2")])])
  else none

/-- One page whose `links` member is JSON `null`. -/
def fetchLinksNull : String → Option JValue := fun u =>
  if u = "b?letter=A" then
    some (JValue.obj [("data", JValue.arr [JValue.num 1]), ("links", JValue.null)])
  else none

/-- One page whose `data` member is the number `5` (truthy, not a list). -/
def fetchDataNum : String → Option JValue := fun u =>
  if u = "b?letter=A" then some (JValue.obj [("data", JValue.num 5)]) else none

/-- One page whose body is the empty JSON object (falsy, `data` missing). -/
def fetchEmptyObj : String → Option JValue := fun u =>
  if u = "b?letter=A" then some (JValue.obj []) else none

/-- Per-category outcomes: single-page success for A (no `links`),
transport failure for B, empty `data` for C. -/
def fetchMixed : String → Option JValue := fun u =>
  if u = "b?letter=A" then
    some (JValue.obj [("data", JValue.arr [JValue.num 1])])
  else if u = "b?letter=B" then none
  else if u = "b?letter=C" then
    some (JValue.obj [("data", JValue.arr [])])
  else none

/-- A two-page chain for A: page 1 links to `"x?cursor=2"`, page 2 has no
`links`. -/
def fetchTwoPages : String → Option JValue := fun u =>
  if u = "b?letter=A" then
    some (JValue.obj [("data", JValue.arr [JValue.num 1, JValue.num 2]),
                      ("links", JValue.obj [("next", JValue.str "x?cursor=2")])])
  else if u = "b?letter=A&cursor=2" then
    some (JValue.obj [("data", JValue.arr [JValue.num 3])])
  else none

/-- Page 1 good with a next-link; the second request fails. -/
def fetchThenFail : String → Option JValue := fun u =>
  if u = "b?letter=A" then
    some (JValue.obj [("data", JValue.arr [JValue.num 1]),
                      ("links", JValue.obj [("next", JValue.str "x?cursor=2")])])
  else none

/-- Page 1 good with a next-link; page 2 is truthy with an empty `data`. -/
def fetchThenEmpty : String → Option JValue := fun u =>
  if u = "b?letter=A" then
    some (JValue.obj [("data", JValue.arr [JValue.num 1]),
                      ("links", JValue.obj [("next", JValue.str "x?cursor=2")])])
  else if u = "b?letter=A&cursor=2" then
    some (JValue.obj [("data", JValue.arr [])])
  else none

/-- The always-failing transport. -/
def fetchNone : String → Option JValue := fun _ => none

/-- C1 counterexample: a next-link with no `'?'` is not treated as "no
further page" — the category run ends in an uncaught `IndexError`, not in
a fault-free stop. -/
theorem c1_counterexample :
    (scrape_category fetchNoQ "b" "A" 2 ⟨[], [], []⟩).2 = Outcome.exn PyErr.indexError ∧
      (scrape_category fetchNoQ "b" "A" 2 ⟨[], [], []⟩).2 ≠ Outcome.ok := by
  refine ⟨rfl, ?_⟩
  intro h
  rw [show (scrape_category fetchNoQ "b" "A" 2 ⟨[], [], []⟩).2 =
      Outcome.exn PyErr.indexError from rfl] at h
  exact Outcome.noConfusion h

/-- C2 counterexample: with a malformed cursor in category A, the
`IndexError` aborts the whole run: category B is never requested and
`save_data` is never attempted. -/
theorem c2_counterexample :
    (run_scraper fetchNoQ "b" 2 ["A", "B"]).2.1 = Outcome.exn PyErr.indexError ∧
      (run_scraper fetchNoQ "b" 2 ["A", "B"]).2.2 = none ∧
      ("B", initUrl "b" "B") ∉ (run_scraper fetchNoQ "b" 2 ["A", "B"]).1.requests := by
  refine ⟨rfl, rfl, ?_⟩
  decide

/-- C3 counterexample: a body whose `links` member is JSON `null` does
not end pagination normally — `.get('next')` on `None` raises
`AttributeError`. -/
theorem c3_counterexample :
    (scrape_category fetchLinksNull "b" "A" 2 ⟨[], [], []⟩).2 =
        Outcome.exn PyErr.attributeError ∧
      (scrape_category fetchLinksNull "b" "A" 2 ⟨[], [], []⟩).2 ≠ Outcome.ok := by
  refine ⟨rfl, ?_⟩
  intro h
  rw [show (scrape_category fetchLinksNull "b" "A" 2 ⟨[], [], []⟩).2 =
      Outcome.exn PyErr.attributeError from rfl] at h
  exact Outcome.noConfusion h

/-- C4 counterexample: when the served `data` is `5` (truthy, not a
list), `setdefault` runs before `extend` raises `TypeError`, leaving an
empty-list entry for A in the accumulator although no fetched page ever
returned a record. -/
theorem c4_counterexample :
    lookupKey (scrape_category fetchDataNum "b" "A" 2 ⟨[], [], []⟩).1.all_data "A" =
        some [] ∧
      (scrape_category fetchDataNum "b" "A" 2 ⟨[], [], []⟩).2 =
        Outcome.exn PyErr.typeError ∧
      (∀ u, ¬HasRecords fetchDataNum u) := by
  refine ⟨rfl, rfl, ?_⟩
  intro u
  rintro ⟨fs, d, hsome, hd, -⟩
  by_cases hu : u = "b?letter=A"
  · subst hu
    rw [show fetchDataNum "b?letter=A" =
        some (JValue.obj [("data", JValue.num 5)]) from rfl] at hsome
    cases hsome
    rw [show lookupKey [("data", JValue.num 5)] "data" =
        some (JValue.num 5) from rfl] at hd
    simp at hd
  · rw [show fetchDataNum u = none from by simp [fetchDataNum, hu]] at hsome
    exact Option.noConfusion hsome

/-- C7 counterexample: a response whose `data` field is missing because
the whole body is the empty object `{}` is falsy, so it takes the silent
transport-failure branch: the category stops with NO warning emitted. -/
theorem c7_counterexample :
    (scrape_category fetchEmptyObj "b" "A" 2 ⟨[], [], []⟩).1.warnings = [] ∧
      (scrape_category fetchEmptyObj "b" "A" 2 ⟨[], [], []⟩).2 = Outcome.ok ∧
      lookupKey ([] : List (String × JValue)) "data" = none := by
  exact ⟨rfl, rfl, rfl⟩

theorem c1_witness :
    ('?' ∉ "page2".data) ∧
      scrape_category fetchNoQ "b" "A" 2 ⟨[], [], []⟩ =
        (⟨[("A", "b?letter=A")], [], [("A", [JValue.num 1])]⟩,
         Outcome.exn PyErr.indexError) :=
  ⟨by decide,
   c1_theorem fetchNoQ "b" "A"
     [("data", JValue.arr [JValue.num 1]),
      ("links", JValue.obj [("next", JValue.str "page2")])]
     [JValue.num 1] [("next", JValue.str "page2")] "page2" 1
     (PageChain.nil _) (by decide) rfl rfl (by simp) rfl rfl (by decide) (by decide)⟩

theorem c2_witness :
    (run_scraper fetchMixed "b" 1 ["A", "B", "C"]).1.requests =
        [("A", "b?letter=A"), ("B", "b?letter=B"), ("C", "b?letter=C")] ∧
      (run_scraper fetchMixed "b" 1 ["A", "B", "C"]).2.1 = Outcome.ok ∧
      (run_scraper fetchMixed "b" 1 ["A", "B", "C"]).2.2 =
        some (save_data (run_scraper fetchMixed "b" 1 ["A", "B", "C"]).1.all_data) := by
  have hone : OnePageOutcome fetchMixed := by
    intro u body hb
    unfold fetchMixed at hb
    split at hb
    · cases hb
      right
      exact ⟨_, rfl, Or.inr ⟨[JValue.num 1], rfl, [], rfl, rfl⟩⟩
    · split at hb
      · exact Option.noConfusion hb
      · split at hb
        · cases hb
          right
          exact ⟨_, rfl, Or.inl rfl⟩
        · exact Option.noConfusion hb
  exact c2_theorem fetchMixed "b" ["A", "B", "C"] 0 hone

theorem c3_witness :
    lookupKey [("data", JValue.arr [JValue.num 1])] "links" = none ∧
      scrape_category fetchMixed "b" "A" 2 ⟨[], [], []⟩ =
        (⟨[("A", "b?letter=A")], [], [("A", [JValue.num 1])]⟩, Outcome.ok) :=
  ⟨rfl,
   c3_theorem fetchMixed "b" "A" [("data", JValue.arr [JValue.num 1])] [JValue.num 1] 1
     (PageChain.nil _) (by decide) rfl rfl (by simp) (Or.inl rfl)⟩

theorem c4_witness :
    ArrDataOnly fetchMixed ∧
      EntriesMatch fetchMixed (runLoop fetchMixed "b" 1 ["A", "B", "C"] ⟨[], [], []⟩).1 := by
  have hArr : ArrDataOnly fetchMixed := by
    intro u fs v hsome hd ht
    unfold fetchMixed at hsome
    split at hsome
    · cases hsome
      rw [show lookupKey [("data", JValue.arr [JValue.num 1])] "data" =
          some (JValue.arr [JValue.num 1]) from rfl] at hd
      cases hd
      exact ⟨_, rfl⟩
    · split at hsome
      · exact Option.noConfusion hsome
      · split at hsome
        · cases hsome
          rw [show lookupKey [("data", JValue.arr ([] : List JValue))] "data" =
              some (JValue.arr []) from rfl] at hd
          cases hd
          exact ⟨_, rfl⟩
        · exact Option.noConfusion hsome
  exact ⟨hArr, (c4_theorem fetchMixed "b" hArr).2 1 ["A", "B", "C"]⟩

theorem c5_witness :
    scrape_category fetchTwoPages "b" "A" 3 ⟨[], [], []⟩ =
      (⟨[("A", "b?letter=A"), ("A", "b?letter=A&cursor=2")], [],
        [("A", [JValue.num 1, JValue.num 2, JValue.num 3])]⟩, Outcome.ok) := by
  have hchain : PageChain fetchTwoPages "b" "A" (initUrl "b" "A")
      [[JValue.num 1, JValue.num 2]] [initUrl "b" "A"]
      (nextUrl "b" "A" (String.mk "cursor=2".data)) :=
    PageChain.cons _ _ _ _ ['x'] "cursor=2".data [] [] _
      (by decide) rfl rfl (by simp) rfl rfl (by decide) (PageChain.nil _)
  exact c5_theorem fetchTwoPages "b" "A" [("data", JValue.arr [JValue.num 3])]
    [JValue.num 3] [] 1 hchain (nextUrl_ne_empty _ _ _) rfl rfl (by simp) rfl rfl

theorem c6_witness :
    scrape_category fetchThenFail "b" "A" 3 ⟨[], [], []⟩ =
        (⟨[("A", "b?letter=A"), ("A", "b?letter=A&cursor=2")], [],
          [("A", [JValue.num 1])]⟩, Outcome.ok) ∧
      ([("A", "b?letter=A"), ("A", "b?letter=A&cursor=2")] :
          List (String × String)).count ("A", "b?letter=A&cursor=2") = 1 := by
  have hchain : PageChain fetchThenFail "b" "A" (initUrl "b" "A")
      [[JValue.num 1]] [initUrl "b" "A"]
      (nextUrl "b" "A" (String.mk "cursor=2".data)) :=
    PageChain.cons _ _ _ _ ['x'] "cursor=2".data [] [] _
      (by decide) rfl rfl (by simp) rfl rfl (by decide) (PageChain.nil _)
  exact c6_theorem fetchThenFail "b" "A" 1 hchain (nextUrl_ne_empty _ _ _) rfl

theorem c7_witness :
    scrape_category fetchThenEmpty "b" "A" 3 ⟨[], [], []⟩ =
      (⟨[("A", "b?letter=A"), ("A", "b?letter=A&cursor=2")], [warnMsg "A"],
        [("A", [JValue.num 1])]⟩, Outcome.ok) := by
  have hchain : PageChain fetchThenEmpty "b" "A" (initUrl "b" "A")
      [[JValue.num 1]] [initUrl "b" "A"]
      (nextUrl "b" "A" (String.mk "cursor=2".data)) :=
    PageChain.cons _ _ _ _ ['x'] "cursor=2".data [] [] _
      (by decide) rfl rfl (by simp) rfl rfl (by decide) (PageChain.nil _)
  exact c7_theorem fetchThenEmpty "b" "A" [("data", JValue.arr [])] 1 hchain
    (nextUrl_ne_empty _ _ _) rfl (by simp) (Or.inr rfl)

theorem c8_witness :
    ∃ rest, (scrape_category fetchTwoPages "b" "A" 2 ⟨[], [], []⟩).1.requests =
      [("A", "b?letter=A"), ("A", "b?letter=A&cursor=2")] ++ rest :=
  c8_theorem fetchTwoPages "b" "A"
    [("data", JValue.arr [JValue.num 1, JValue.num 2]),
     ("links", JValue.obj [("next", JValue.str "x?cursor=2")])]
    [JValue.num 1, JValue.num 2] [("next", JValue.str "x?cursor=2")]
    ['x'] "cursor=2".data 0 rfl rfl (by simp) rfl rfl (by decide)

theorem c9_witness :
    (run_scraper fetchMixed "b" 1 ["A"]).2.2 =
        some (save_data [("A", [JValue.num 1])]) ∧
      save_data [("A", [JValue.num 1])] = SaveOut.wrote [("A", [JValue.num 1])] := by
  have h := c9_theorem fetchMixed "b" 1 ["A"]
    ⟨[("A", "b?letter=A")], [], [("A", [JValue.num 1])]⟩ rfl
  exact ⟨h.1, h.2.2 (by simp)⟩

theorem c10_witness :
    scrapeLoop fetchEmptyObj "b" "A" 1 (some "b?letter=A") ⟨[], [], []⟩ =
        (⟨[("A", "b?letter=A")], [], []⟩, Outcome.ok) ∧
      scrapeLoop fetchEmptyObj "b" "A" 1 (some "b?letter=A") ⟨[], [], []⟩ =
        scrapeLoop fetchNone "b" "A" 1 (some "b?letter=A") ⟨[], [], []⟩ := by
  have h := c10_theorem fetchEmptyObj fetchNone "b" "A" "b?letter=A" ⟨[], [], []⟩
    (JValue.obj []) 0 (by decide) rfl rfl rfl
  exact ⟨h.1, h.2.1⟩
